import Mathlib

/-!
Shallow embedding of the battleship game engine and room coordinator.

The pure game engine (`createBoard`, `placeShip`, `resolveShot`, `checkWin`)
is translated from `packages/shared/src/gameEngine.ts`.  A board is a total
function from (row, col) to cells; the game only ever reads or writes indices
below `BOARD_SIZE`, always after an explicit bounds check, so the functional
representation is faithful.  JavaScript's thrown exceptions become `Except`
results; client-supplied coordinates are `Int` (they are range-checked by the
code); the clock/random ship-id generator is passed in as a parameter.
-/

namespace Battleship

def BOARD_SIZE : Nat := 10

structure Cell where
  ship : Option String
  hit : Bool
deriving Repr, DecidableEq

def Board : Type := Nat → Nat → Cell

def createBoard : Board := fun _ _ => { ship := none, hit := false }

def setCell (b : Board) (r c : Nat) (v : Cell) : Board :=
  fun r' c' => if r' = r ∧ c' = c then v else b r' c'

structure Ship where
  id : String
  name : String
  size : Nat
  cells : List (Nat × Nat)
  sunk : Bool
deriving Repr, DecidableEq

structure ShipSpec where
  name : String
  size : Nat
deriving Repr, DecidableEq

inductive Orientation where
  | horizontal
  | vertical
deriving Repr, DecidableEq

/-- The list of standard fleet entries, from `packages/shared/src/index.ts`. -/
def SHIPS : List ShipSpec :=
  [⟨"Carrier", 5⟩, ⟨"Battleship", 4⟩, ⟨"Cruiser", 3⟩, ⟨"Submarine", 3⟩, ⟨"Destroyer", 2⟩]

inductive PlacementResult where
  | failure (error : String)
  | success (board : Board) (ship : Ship)

/-- The cells a ship occupies, in the traversal order of the placement loop. -/
def shipPath (row col : Nat) (size : Nat) (o : Orientation) : List (Nat × Nat) :=
  (List.range size).map (fun i =>
    match o with
    | .vertical => (row + i, col)
    | .horizontal => (row, col + i))

/-- `placeShip` from `gameEngine.ts`.  The generated ship id
(`name-Date.now()-random`) is nondeterministic in the source and is passed in
as `shipId`. -/
def placeShip (board : Board) (ship : ShipSpec) (row col : Int)
    (o : Orientation) (shipId : String) : PlacementResult :=
  if row < 0 ∨ row ≥ (BOARD_SIZE : Int) ∨ col < 0 ∨ col ≥ (BOARD_SIZE : Int) then
    .failure "Starting position is out of bounds"
  else
    let endRow : Int := if o = .vertical then row + ship.size - 1 else row
    let endCol : Int := if o = .horizontal then col + ship.size - 1 else col
    if endRow ≥ (BOARD_SIZE : Int) ∨ endCol ≥ (BOARD_SIZE : Int) then
      .failure "Ship extends beyond board boundaries"
    else
      let cells := shipPath row.toNat col.toNat ship.size o
      if cells.any (fun p => (board p.1 p.2).ship ≠ none) then
        .failure "Ship overlaps with another ship"
      else
        let newBoard := cells.foldl
          (fun b p => setCell b p.1 p.2 { b p.1 p.2 with ship := some shipId }) board
        .success newBoard
          { id := shipId, name := ship.name, size := ship.size, cells := cells, sunk := false }

structure ShotResult where
  hit : Bool
  sunk : Bool
  shipName : Option String
  alreadyFired : Bool
deriving Repr, DecidableEq

structure ShotOutcome where
  result : ShotResult
  board : Board
  ships : List Ship

/-- The source mutates the ship object returned by `ships.find`, i.e. the
first fleet entry whose id matches; its `sunk` is set to `true` only when
`allCellsHit` holds. -/
def markFirstSunk (ships : List Ship) (shipId : String) (allCellsHit : Bool) : List Ship :=
  match ships with
  | [] => []
  | s :: rest =>
    if s.id = shipId then
      (if allCellsHit then { s with sunk := true } else s) :: rest
    else
      s :: markFirstSunk rest shipId allCellsHit

/-- `resolveShot` from `gameEngine.ts`.  The two `throw` statements become
`Except.error`. -/
def resolveShot (board : Board) (ships : List Ship) (row col : Int) :
    Except String ShotOutcome :=
  if row < 0 ∨ row ≥ (BOARD_SIZE : Int) ∨ col < 0 ∨ col ≥ (BOARD_SIZE : Int) then
    .error "Shot coordinates are out of bounds"
  else
    let r := row.toNat
    let c := col.toNat
    let cell := board r c
    if cell.hit then
      .ok { result := { hit := false, sunk := false, shipName := none, alreadyFired := true },
            board := board, ships := ships }
    else
      let newBoard := setCell board r c { cell with hit := true }
      match cell.ship with
      | none =>
        .ok { result := { hit := false, sunk := false, shipName := none, alreadyFired := false },
              board := newBoard, ships := ships }
      | some shipId =>
        match ships.find? (fun s => s.id == shipId) with
        | none => .error "Ship not found in ships array"
        | some hitShip =>
          let allCellsHit := hitShip.cells.all (fun p => (newBoard p.1 p.2).hit)
          .ok { result := { hit := true, sunk := allCellsHit,
                            shipName := some hitShip.name, alreadyFired := false },
                board := newBoard, ships := markFirstSunk ships shipId allCellsHit }

/-- `checkWin` from `gameEngine.ts`. -/
def checkWin (ships : List Ship) : Bool :=
  !ships.isEmpty && ships.all (fun s => s.sunk)

/-!
Room/session coordinator, translated from `packages/server/src/index.ts`.

Each socket handler is embedded as a pure function from the room it acts on
(the handler body after the `rooms`/`playerToRoom` lookups have succeeded) to
the updated room plus the list of `(recipient socket id, event)` messages it
emits.  `Date.now()` becomes a `now : Nat` parameter, `Math.random() < 0.5`
in the turn-holder draw becomes a `coin : Bool` parameter, and the ship-id
generator becomes an `ids : Nat → String` parameter (one id per placement).
-/

inductive Phase where
  | waiting
  | placement
  | battle
  | finished
deriving Repr, DecidableEq

structure Player where
  socketId : String
  board : Board
  ships : List Ship
  ready : Bool

structure Room where
  code : String
  players : List Player
  phase : Phase
  currentTurn : String
  createdAt : Nat
  lastActivity : Nat

/-- Outbound socket events, with exactly the payload fields the server sends. -/
inductive ServerEvent where
  | errorMsg (message : String)
  | roomJoined (code : String)
  | phasePlacement
  | placementConfirmed
  | phaseBattle (currentTurn : String) (isYourTurn : Bool)
  | shotResultEv (row col : Int) (hit sunk : Bool) (shipName : Option String)
  | opponentShot (row col : Int) (hit sunk : Bool) (shipName : Option String)
  | turnChanged (currentTurn : String) (isYourTurn : Bool)
  | gameOverEv (winner : String) (reason : String)
  | opponentReconnected
  | gameState (phase : Phase) (yourBoard : Board) (yourShips : List Ship)
      (ready : Bool) (currentTurn : String) (isYourTurn : Bool)
  | roomClosed (reason : String)

abbrev Emits := List (String × ServerEvent)

def IDLE_TIMEOUT_MS : Nat := 10 * 60 * 1000

/-- `createPlayer` from the server. -/
def createPlayer (socketId : String) : Player :=
  { socketId := socketId, board := createBoard, ships := [], ready := false }

/-- `getOpponent` from the server: the first player whose socket id differs. -/
def getOpponent (room : Room) (socketId : String) : Option Player :=
  room.players.find? (fun p => p.socketId != socketId)

/-- In the source the handler mutates the player object found by
`players.find`, i.e. the first entry with the given socket id. -/
def updateFirstPlayer (ps : List Player) (sid : String) (f : Player → Player) : List Player :=
  match ps with
  | [] => []
  | p :: rest => if p.socketId = sid then f p :: rest else p :: updateFirstPlayer rest sid f

/-- The placement loop of the `place-ships` handler: starting from a fresh
board, apply `placeShip` to each submitted placement in order, failing with
`Invalid placement: <error>` at the first invalid one. -/
structure Placement where
  ship : ShipSpec
  row : Int
  col : Int
  orient : Orientation
deriving Repr, DecidableEq

def buildFleet (board : Board) (ships : List Ship) (placements : List Placement)
    (ids : Nat → String) (k : Nat) : Except String (Board × List Ship) :=
  match placements with
  | [] => .ok (board, ships)
  | pl :: rest =>
    match placeShip board pl.ship pl.row pl.col pl.orient (ids k) with
    | .failure e => .error ("Invalid placement: " ++ e)
    | .success b sh => buildFleet b (ships ++ [sh]) rest ids (k + 1)

/-- The `place-ships` handler body, from the point where the room has been
found.  On success the player's board/ships/ready are replaced, the room's
activity timestamp is refreshed, and if every player is then ready the room
enters battle with a coin-drawn turn holder.  (The source indexes
`room.players[coin ? 0 : 1]`; a room in placement phase always has two
players, and in the unreachable shorter case we emit only the
confirmation.) -/
def placeShipsHandler (room : Room) (sid : String) (placements : List Placement)
    (ids : Nat → String) (now : Nat) (coin : Bool) : Room × Emits :=
  if room.phase ≠ .placement then
    (room, [(sid, .errorMsg "Not in placement phase")])
  else if (room.players.find? (fun p => p.socketId == sid)).isNone then
    (room, [(sid, .errorMsg "Player not found")])
  else
    match buildFleet createBoard [] placements ids 0 with
    | .error msg => (room, [(sid, .errorMsg msg)])
    | .ok (board, ships) =>
      if ships.length ≠ SHIPS.length then
        (room, [(sid, .errorMsg "Not all ships were placed")])
      else
        let room' :=
          { room with
            players := updateFirstPlayer room.players sid
              (fun p => { p with board := board, ships := ships, ready := true }),
            lastActivity := now }
        if room'.players.all (fun p => p.ready) then
          match room'.players[if coin then 0 else 1]? with
          | some firstPlayer =>
            let room'' := { room' with currentTurn := firstPlayer.socketId, phase := .battle }
            (room'',
             (sid, .placementConfirmed) ::
               room''.players.map (fun p =>
                 (p.socketId, .phaseBattle room''.currentTurn (p.socketId == room''.currentTurn))))
          | none => (room', [(sid, .placementConfirmed)])
        else
          (room', [(sid, .placementConfirmed)])

/-- The `fire` handler body, from the point where the room has been found.
Note the source calls `updateRoomActivity` before resolving the shot and has
no bounds pre-check of its own: `resolveShot`'s thrown errors are caught and
emitted as `error` messages. -/
def fireHandler (room : Room) (sid : String) (row col : Int) (now : Nat) : Room × Emits :=
  if room.phase ≠ .battle then
    (room, [(sid, .errorMsg "Not in battle phase")])
  else if room.currentTurn ≠ sid then
    (room, [(sid, .errorMsg "Not your turn")])
  else
    match getOpponent room sid with
    | none => (room, [(sid, .errorMsg "Opponent not found")])
    | some opp =>
      let roomA := { room with lastActivity := now }
      match resolveShot opp.board opp.ships row col with
      | .error msg => (roomA, [(sid, .errorMsg msg)])
      | .ok out =>
        if out.result.alreadyFired then
          (roomA, [(sid, .errorMsg "Already fired at this cell")])
        else
          let roomB :=
            { roomA with
              players := updateFirstPlayer roomA.players opp.socketId
                (fun p => { p with board := out.board, ships := out.ships }) }
          let toFirer : String × ServerEvent :=
            (sid, .shotResultEv row col out.result.hit out.result.sunk out.result.shipName)
          let toTarget : String × ServerEvent :=
            (opp.socketId, .opponentShot row col out.result.hit out.result.sunk out.result.shipName)
          if checkWin out.ships then
            ({ roomB with phase := .finished },
             [toFirer, toTarget,
              (sid, .gameOverEv sid "all-ships-sunk"),
              (opp.socketId, .gameOverEv sid "all-ships-sunk")])
          else
            ({ roomB with currentTurn := opp.socketId },
             [toFirer, toTarget,
              (sid, .turnChanged opp.socketId false),
              (opp.socketId, .turnChanged opp.socketId true)])

/-- The `join-room` handler body, from the point where the room has been
found.  `phase:placement` is broadcast to the room channel, i.e. to every
player in it. -/
def joinRoomHandler (room : Room) (sid : String) (now : Nat) : Room × Emits :=
  if room.players.length ≥ 2 then
    (room, [(sid, .errorMsg "Room is full")])
  else
    let room' :=
      { room with players := room.players ++ [createPlayer sid], lastActivity := now }
    if room'.players.length = 2 then
      ({ room' with phase := .placement },
       (sid, .roomJoined room.code) ::
         room'.players.map (fun p => (p.socketId, .phasePlacement)))
    else
      (room', [(sid, .roomJoined room.code)])

/-- `handleReconnect` from the server, from the point where the room has been
found.  `pending` is whether `disconnectedPlayers` still holds a timeout for
this socket; when it does, the timer is cleared (outside the room state), the
opponent is notified, and the reconnecting player receives a `game-state`
snapshot built solely from its own fields plus the room's phase/turn.  The
room itself — including `lastActivity` — is not modified. -/
def handleReconnect (room : Room) (sid : String) (pending : Bool) : Room × Emits :=
  if !pending then
    (room, [])
  else
    let oppEvs : Emits :=
      match getOpponent room sid with
      | some opp => [(opp.socketId, .opponentReconnected)]
      | none => []
    match room.players.find? (fun p => p.socketId == sid) with
    | some player =>
      (room, oppEvs ++
        [(sid, .gameState room.phase player.board player.ships player.ready
            room.currentTurn (room.currentTurn == sid))])
    | none => (room, oppEvs)

/-- `checkIdleRooms`: the periodic sweep removes every room idle for more
than `IDLE_TIMEOUT_MS` and emits `room-closed` to each of its players. -/
def roomIsIdle (room : Room) (now : Nat) : Bool :=
  IDLE_TIMEOUT_MS < now - room.lastActivity

def checkIdleRooms (roomsL : List Room) (now : Nat) : List Room × Emits :=
  (roomsL.filter (fun r => !roomIsIdle r now),
   (roomsL.filter (fun r => roomIsIdle r now)).flatMap
     (fun r => r.players.map
       (fun p => (p.socketId, .roomClosed "Room was idle for 10 minutes"))))

/-!
AI opponent, translated from `packages/shared/src/aiOpponent.ts`.

The JS `Set` of `"row,col"` strings is a list of `Int × Int` pairs (the string
key determines the integer pair and vice versa).  An optional/undefined `sunk`
field is a `Bool` (only its truthiness is ever used).  `Math.random()` in hunt
mode becomes an `rng : Nat` parameter reduced modulo the number of available
cells, covering every index the source can draw.  The `throw` on a fully
covered board becomes `Except.error`.
-/

structure ShotRecord where
  row : Int
  col : Int
  hit : Bool
  sunk : Bool
deriving Repr, DecidableEq

inductive AIMode where
  | hunt
  | target
deriving Repr, DecidableEq

structure AIState where
  mode : AIMode
  targetQueue : List (Int × Int)
  lastHit : Option (Int × Int)
  currentShipHits : List (Int × Int)
  lastProcessedShotCount : Nat
deriving Repr, DecidableEq

def initialAIState : AIState :=
  { mode := .hunt, targetQueue := [], lastHit := none,
    currentShipHits := [], lastProcessedShotCount := 0 }

def firedPositions (history : List ShotRecord) : List (Int × Int) :=
  history.map (fun s => (s.row, s.col))

/-- `addAdjacentTargets`: enqueue the in-bounds, not-yet-fired, not-yet-queued
orthogonal neighbours of a hit cell, in up/down/left/right order. -/
def addAdjacentTargets (queue : List (Int × Int)) (row col : Int)
    (fired : List (Int × Int)) : List (Int × Int) :=
  [((-1 : Int), (0 : Int)), (1, 0), (0, -1), (0, 1)].foldl
    (fun q d =>
      let nr := row + d.1
      let nc := col + d.2
      if 0 ≤ nr ∧ nr < (BOARD_SIZE : Int) ∧ 0 ≤ nc ∧ nc < (BOARD_SIZE : Int) ∧
          ¬ (nr, nc) ∈ fired ∧ ¬ (nr, nc) ∈ q then
        q ++ [(nr, nc)]
      else q)
    queue

/-- Processing of one history entry inside `updateStateFromHistory`. -/
def processShot (st : AIState) (fired : List (Int × Int)) (shot : ShotRecord) : AIState :=
  let st1 :=
    if shot.hit ∧ ¬ shot.sunk then
      { st with
        mode := .target,
        lastHit := some (shot.row, shot.col),
        currentShipHits := st.currentShipHits ++ [(shot.row, shot.col)],
        targetQueue := addAdjacentTargets st.targetQueue shot.row shot.col fired }
    else st
  if shot.sunk then
    { st1 with mode := .hunt, targetQueue := [], currentShipHits := [], lastHit := none }
  else st1

/-- `updateStateFromHistory`: reset on empty history, otherwise process only
the suffix after `lastProcessedShotCount` and record the new length. -/
def updateStateFromHistory (st : AIState) (history : List ShotRecord)
    (fired : List (Int × Int)) : AIState :=
  if history.isEmpty then initialAIState
  else
    let st' := (history.drop st.lastProcessedShotCount).foldl
      (fun s sh => processShot s fired sh) st
    { st' with lastProcessedShotCount := history.length }

/-- The 10×10 grid in the row-major order of `getHuntModeShot`'s loops. -/
def gridCells : List (Int × Int) :=
  (List.range BOARD_SIZE).flatMap
    (fun r => (List.range BOARD_SIZE).map (fun c => (Int.ofNat r, Int.ofNat c)))

/-- `getHuntModeShot`: a random not-yet-fired cell, failing when none exist. -/
def getHuntModeShot (fired : List (Int × Int)) (rng : Nat) :
    Except String (Int × Int) :=
  let available := gridCells.filter (fun p => ¬ p ∈ fired)
  if available.isEmpty then
    .error "No available cells to fire at"
  else
    .ok (available.getD (rng % available.length) (0, 0))

/-- `getTargetModeShot`: drop already-fired queue entries, pop the head, and
fall back to hunt mode when the queue runs dry. -/
def getTargetModeShot (st : AIState) (fired : List (Int × Int)) (rng : Nat) :
    Except String ((Int × Int) × AIState) :=
  let q := st.targetQueue.filter (fun t => ¬ t ∈ fired)
  match q with
  | [] =>
    (getHuntModeShot fired rng).map
      (fun p => (p, { st with mode := .hunt, targetQueue := [] }))
  | t :: rest => .ok (t, { st with targetQueue := rest })

/-- `getNextShot`: derive the fired set from the supplied history, fold the
unseen history suffix into the state, then shoot in target or hunt mode. -/
def getNextShot (st : AIState) (history : List ShotRecord) (rng : Nat) :
    Except String ((Int × Int) × AIState) :=
  let fired := firedPositions history
  let st1 := updateStateFromHistory st history fired
  if st1.mode = .target ∧ st1.targetQueue ≠ [] then
    getTargetModeShot st1 fired rng
  else
    (getHuntModeShot fired rng).map (fun p => (p, st1))

/-!
Derived observation functions and concrete fixtures used by the theorems,
their witnesses and counterexamples below.
-/

/-- The coordinate that advances along the orientation axis. -/
def orientAxis (o : Orientation) : Nat × Nat → Nat :=
  match o with
  | .vertical => Prod.fst
  | .horizontal => Prod.snd

/-- Field-wise relationship between an input fleet entry and the
corresponding output entry of `resolveShot`: identity, except that when the
targeted cell's occupant id matches, the `sunk` flag may have been raised. -/
def shipFrame (occ : Option String) (s s' : Ship) : Prop :=
  s'.id = s.id ∧ s'.name = s.name ∧ s'.size = s.size ∧ s'.cells = s.cells ∧
  (occ ≠ some s.id → s' = s) ∧ (s' = s ∨ s' = { s with sunk := true })

/-- The "single targeted cell's outcome" in the sense of the spec: everything
a shot at (row, col) is allowed to reveal about the defender — whether the
cell was already targeted, whether it is occupied, and for an occupied cell
the owning ship's kind and whether that ship is fully hit after the shot
(plus the two corrupted/out-of-range failure modes). -/
inductive TargetObs where
  | oob
  | dup
  | noShip
  | shipMissing
  | shipHit (kind : String) (nowSunk : Bool)
deriving Repr, DecidableEq

def targetObs (board : Board) (ships : List Ship) (row col : Int) : TargetObs :=
  if row < 0 ∨ row ≥ (BOARD_SIZE : Int) ∨ col < 0 ∨ col ≥ (BOARD_SIZE : Int) then .oob
  else
    let r := row.toNat
    let c := col.toNat
    let cell := board r c
    if cell.hit then .dup
    else
      match cell.ship with
      | none => .noShip
      | some shipId =>
        match ships.find? (fun s => s.id == shipId) with
        | none => .shipMissing
        | some hitShip =>
          .shipHit hitShip.name
            (hitShip.cells.all
              (fun p => ((setCell board r c { cell with hit := true }) p.1 p.2).hit))

/-- The user-visible shot result each observation determines. -/
def resultOfObs : TargetObs → Except String ShotResult
  | .oob => .error "Shot coordinates are out of bounds"
  | .dup => .ok { hit := false, sunk := false, shipName := none, alreadyFired := true }
  | .noShip => .ok { hit := false, sunk := false, shipName := none, alreadyFired := false }
  | .shipMissing => .error "Ship not found in ships array"
  | .shipHit kind nowSunk =>
    .ok { hit := true, sunk := nowSunk, shipName := some kind, alreadyFired := false }

/-- Whether the defender's fleet is fully sunk after the shot (the public
win bit a fire is allowed to reveal in addition to the cell outcome). -/
def winAfter (board : Board) (ships : List Ship) (row col : Int) : Bool :=
  match resolveShot board ships row col with
  | .ok out => checkWin out.ships
  | .error _ => false

/-- The complete message list a fire emits, as a function of the two session
ids, the coordinates, the user-visible shot result and the public win bit —
and of nothing else. -/
def fireEvents (sid oppId : String) (row col : Int)
    (res : Except String ShotResult) (win : Bool) : Emits :=
  match res with
  | .error msg => [(sid, .errorMsg msg)]
  | .ok result =>
    if result.alreadyFired then
      [(sid, .errorMsg "Already fired at this cell")]
    else if win then
      [(sid, .shotResultEv row col result.hit result.sunk result.shipName),
       (oppId, .opponentShot row col result.hit result.sunk result.shipName),
       (sid, .gameOverEv sid "all-ships-sunk"),
       (oppId, .gameOverEv sid "all-ships-sunk")]
    else
      [(sid, .shotResultEv row col result.hit result.sunk result.shipName),
       (oppId, .opponentShot row col result.hit result.sunk result.shipName),
       (sid, .turnChanged oppId false),
       (oppId, .turnChanged oppId true)]

/-- The message list a reconnect emits, as a function of the reconnecting
session's own fields, the room's phase/turn, and the opponent's session id —
and of nothing else. -/
def reconnectEvents (sid : String) (oppId : Option String) (phase : Phase)
    (b : Board) (sh : List Ship) (rd : Bool) (turn : String) : Emits :=
  (match oppId with
   | some oid => [(oid, ServerEvent.opponentReconnected)]
   | none => []) ++
  [(sid, .gameState phase b sh rd turn (turn == sid))]

/-- In-bounds predicate for AI cells. -/
def inBoard (p : Int × Int) : Prop :=
  0 ≤ p.1 ∧ p.1 < (BOARD_SIZE : Int) ∧ 0 ≤ p.2 ∧ p.2 < (BOARD_SIZE : Int)

def destroyerShip : Ship :=
  { id := "d1", name := "Destroyer", size := 2, cells := [(0, 0), (0, 1)], sunk := false }

/-- A board holding just `destroyerShip`, no cell targeted yet. -/
def boardD : Board :=
  setCell (setCell createBoard 0 0 { ship := some "d1", hit := false })
    0 1 { ship := some "d1", hit := false }

/-- `boardD` after a first shot at (0,0). -/
def boardDHit : Board := setCell boardD 0 0 { ship := some "d1", hit := true }

def playerA : Player :=
  { socketId := "A", board := boardD, ships := [destroyerShip], ready := true }

def playerB : Player :=
  { socketId := "B", board := boardD, ships := [destroyerShip], ready := true }

def playerBHit : Player :=
  { socketId := "B", board := boardDHit, ships := [destroyerShip], ready := true }

/-- A battle-phase room on A's turn, with B's Destroyer untouched. -/
def battleRoom : Room :=
  { code := "ABC123", players := [playerA, playerB], phase := .battle,
    currentTurn := "A", createdAt := 0, lastActivity := 0 }

/-- A battle-phase room on A's turn where (0,0) of B's board was already hit. -/
def battleRoomDup : Room :=
  { code := "ABC123", players := [playerA, playerBHit], phase := .battle,
    currentTurn := "A", createdAt := 0, lastActivity := 0 }

/-- A variant of `battleRoom` where B's Destroyer lies vertically at
(0,0)–(1,0) instead of horizontally at (0,0)–(0,1). -/
def destroyerShipV : Ship :=
  { id := "d2", name := "Destroyer", size := 2, cells := [(0, 0), (1, 0)], sunk := false }

def boardDV : Board :=
  setCell (setCell createBoard 0 0 { ship := some "d2", hit := false })
    1 0 { ship := some "d2", hit := false }

def playerBV : Player :=
  { socketId := "B", board := boardDV, ships := [destroyerShipV], ready := true }

def battleRoomV : Room :=
  { code := "ABC123", players := [playerA, playerBV], phase := .battle,
    currentTurn := "A", createdAt := 0, lastActivity := 0 }

/-- A placement-phase room with two fresh players. -/
def placementRoom : Room :=
  { code := "ABC123", players := [createPlayer "A", createPlayer "B"],
    phase := .placement, currentTurn := "", createdAt := 0, lastActivity := 0 }

/-- A one-player waiting room. -/
def waitingRoom : Room :=
  { code := "ABC123", players := [createPlayer "A"], phase := .waiting,
    currentTurn := "", createdAt := 0, lastActivity := 0 }

def carrierPl : Placement := ⟨⟨"Carrier", 5⟩, 0, 0, .horizontal⟩

/-- A placement whose end column 7 + 4 − 1 = 10 exceeds the board. -/
def badPl : Placement := ⟨⟨"Battleship", 4⟩, 0, 7, .horizontal⟩

/-- Board and fleet after the valid prefix `[carrierPl]`. -/
def preBoardW : Board :=
  match buildFleet createBoard [] [carrierPl] (fun _ => "w") 0 with
  | .ok bs => bs.1
  | .error _ => createBoard

def preShipsW : List Ship :=
  match buildFleet createBoard [] [carrierPl] (fun _ => "w") 0 with
  | .ok bs => bs.2
  | .error _ => []

/-- A fully valid standard five-ship submission. -/
def stdPlacements : List Placement :=
  [⟨⟨"Carrier", 5⟩, 0, 0, .horizontal⟩,
   ⟨⟨"Battleship", 4⟩, 1, 0, .horizontal⟩,
   ⟨⟨"Cruiser", 3⟩, 2, 0, .horizontal⟩,
   ⟨⟨"Submarine", 3⟩, 3, 0, .horizontal⟩,
   ⟨⟨"Destroyer", 2⟩, 4, 0, .horizontal⟩]

def stdBoardW : Board :=
  match buildFleet createBoard [] stdPlacements (fun _ => "w") 0 with
  | .ok bs => bs.1
  | .error _ => createBoard

def stdShipsW : List Ship :=
  match buildFleet createBoard [] stdPlacements (fun _ => "w") 0 with
  | .ok bs => bs.2
  | .error _ => []

/-- Five Destroyer-kind placements on five separate rows: every placement is
geometrically valid, but the submitted kinds are not one-per-kind of the
standard fleet. -/
def fiveDestroyers : List Placement :=
  [⟨⟨"Destroyer", 2⟩, 0, 0, .horizontal⟩,
   ⟨⟨"Destroyer", 2⟩, 1, 0, .horizontal⟩,
   ⟨⟨"Destroyer", 2⟩, 2, 0, .horizontal⟩,
   ⟨⟨"Destroyer", 2⟩, 3, 0, .horizontal⟩,
   ⟨⟨"Destroyer", 2⟩, 4, 0, .horizontal⟩]

/-- A shot history covering all 100 cells. -/
def fullHistory : List ShotRecord :=
  gridCells.map (fun p => { row := p.1, col := p.2, hit := false, sunk := false })

/-!  ## Theorems  -/

lemma shipPath_pairwise (row col size : Nat) (o : Orientation) :
    (shipPath row col size o).Pairwise (fun a b => orientAxis o a < orientAxis o b) := by
  unfold shipPath orientAxis
  cases o <;>
    · simp only [List.pairwise_map]
      exact (List.pairwise_lt_range size).imp (by omega)

/-- C7: `placeShip` validates in a fixed order with the first failing check
winning: out-of-bounds start, then an end coordinate `start + size − 1`
beyond index 9 along the oriented axis, then overlap; otherwise it succeeds
with a ship whose `sunk` is `false` and whose cells strictly increase along
the orientation axis. -/
theorem placeShip_validation_order (board : Board) (spec : ShipSpec) (row col : Int)
    (o : Orientation) (shipId : String) :
    ((row < 0 ∨ row ≥ (BOARD_SIZE : Int) ∨ col < 0 ∨ col ≥ (BOARD_SIZE : Int)) →
      placeShip board spec row col o shipId = .failure "Starting position is out of bounds")
    ∧ (¬ (row < 0 ∨ row ≥ (BOARD_SIZE : Int) ∨ col < 0 ∨ col ≥ (BOARD_SIZE : Int)) →
      ((if o = .vertical then row + spec.size - 1 else row) ≥ (BOARD_SIZE : Int) ∨
        (if o = .horizontal then col + spec.size - 1 else col) ≥ (BOARD_SIZE : Int)) →
      placeShip board spec row col o shipId = .failure "Ship extends beyond board boundaries")
    ∧ (¬ (row < 0 ∨ row ≥ (BOARD_SIZE : Int) ∨ col < 0 ∨ col ≥ (BOARD_SIZE : Int)) →
      ¬ ((if o = .vertical then row + spec.size - 1 else row) ≥ (BOARD_SIZE : Int) ∨
        (if o = .horizontal then col + spec.size - 1 else col) ≥ (BOARD_SIZE : Int)) →
      (∃ p ∈ shipPath row.toNat col.toNat spec.size o, (board p.1 p.2).ship ≠ none) →
      placeShip board spec row col o shipId = .failure "Ship overlaps with another ship")
    ∧ (¬ (row < 0 ∨ row ≥ (BOARD_SIZE : Int) ∨ col < 0 ∨ col ≥ (BOARD_SIZE : Int)) →
      ¬ ((if o = .vertical then row + spec.size - 1 else row) ≥ (BOARD_SIZE : Int) ∨
        (if o = .horizontal then col + spec.size - 1 else col) ≥ (BOARD_SIZE : Int)) →
      (∀ p ∈ shipPath row.toNat col.toNat spec.size o, (board p.1 p.2).ship = none) →
      ∃ b', placeShip board spec row col o shipId = .success b'
          { id := shipId, name := spec.name, size := spec.size,
            cells := shipPath row.toNat col.toNat spec.size o, sunk := false }
        ∧ (shipPath row.toNat col.toNat spec.size o).Pairwise
            (fun a b => orientAxis o a < orientAxis o b)) := by
  refine ⟨fun h => ?_, fun h1 h2 => ?_, fun h1 h2 h3 => ?_, fun h1 h2 h3 => ?_⟩
  · simp only [placeShip, if_pos h]
  · simp only [placeShip, if_neg h1, if_pos h2]
  · have hany : (shipPath row.toNat col.toNat spec.size o).any
        (fun p => (board p.1 p.2).ship ≠ none) = true := by
      rw [List.any_eq_true]
      obtain ⟨p, hp, hne⟩ := h3
      exact ⟨p, hp, by simpa using hne⟩
    simp only [placeShip, if_neg h1, if_neg h2, hany, if_pos]
  · have hany : (shipPath row.toNat col.toNat spec.size o).any
        (fun p => (board p.1 p.2).ship ≠ none) = false := by
      rw [List.any_eq_false]
      intro p hp
      simpa using h3 p hp
    refine ⟨(shipPath row.toNat col.toNat spec.size o).foldl
      (fun b p => setCell b p.1 p.2 { b p.1 p.2 with ship := some shipId }) board,
      ?_, shipPath_pairwise _ _ _ o⟩
    simp only [placeShip, if_neg h1, if_neg h2, hany]
    rfl

/-- Concrete instances of all four branches of `placeShip_validation_order`. -/
theorem placeShip_validation_order_witness :
    placeShip createBoard ⟨"Carrier", 5⟩ (-1) 0 .horizontal "a"
        = .failure "Starting position is out of bounds"
    ∧ placeShip createBoard ⟨"Carrier", 5⟩ 0 6 .horizontal "a"
        = .failure "Ship extends beyond board boundaries"
    ∧ placeShip (setCell createBoard 0 1 { ship := some "x", hit := false })
        ⟨"Destroyer", 2⟩ 0 0 .horizontal "b"
        = .failure "Ship overlaps with another ship"
    ∧ ∃ b', placeShip createBoard ⟨"Destroyer", 2⟩ 0 8 .horizontal "d"
          = .success b'
            { id := "d", name := "Destroyer", size := 2,
              cells := shipPath 0 8 2 .horizontal, sunk := false }
        ∧ (shipPath 0 8 2 .horizontal).Pairwise
            (fun a b => orientAxis .horizontal a < orientAxis .horizontal b) :=
  ⟨(placeShip_validation_order createBoard ⟨"Carrier", 5⟩ (-1) 0 .horizontal "a").1
      (by decide),
   (placeShip_validation_order createBoard ⟨"Carrier", 5⟩ 0 6 .horizontal "a").2.1
      (by decide) (by decide),
   (placeShip_validation_order (setCell createBoard 0 1 { ship := some "x", hit := false })
        ⟨"Destroyer", 2⟩ 0 0 .horizontal "b").2.2.1
      (by decide) (by decide) (by decide),
   (placeShip_validation_order createBoard ⟨"Destroyer", 2⟩ 0 8 .horizontal "d").2.2.2
      (by decide) (by decide) (by decide)⟩

lemma find?_markFirstSunk (ships : List Ship) (id : String) (b : Bool) (S : Ship)
    (h : ships.find? (fun s => s.id == id) = some S) :
    (markFirstSunk ships id b).find? (fun s => s.id == id)
      = some (if b then { S with sunk := true } else S) := by
  induction ships with
  | nil => simp at h
  | cons s rest ih =>
    unfold markFirstSunk
    by_cases hs : s.id = id
    · rw [show List.find? (fun x : Ship => x.id == id) (s :: rest) = some s from
        List.find?_cons_of_pos rest (by simpa using hs)] at h
      obtain rfl : s = S := by simpa using h
      rw [if_pos hs]
      exact List.find?_cons_of_pos _ (by cases b <;> simpa using hs)
    · rw [show List.find? (fun x : Ship => x.id == id) (s :: rest)
          = List.find? (fun x : Ship => x.id == id) rest from
        List.find?_cons_of_neg rest (by simpa using hs)] at h
      rw [if_neg hs]
      rw [show List.find? (fun x : Ship => x.id == id) (s :: markFirstSunk rest id b)
          = List.find? (fun x : Ship => x.id == id) (markFirstSunk rest id b) from
        List.find?_cons_of_neg _ (by simpa using hs)]
      exact ih h

/-- C6: a ship is marked sunk by `resolveShot` exactly when every one of its
cells has been targeted.  Shooting any untargeted cell of a not-yet-sunk ship
yields a hit whose outcome carries the ship's kind name; the outcome's `sunk`
flag — and the flag stored on the ship in the returned fleet — is `true`
precisely when every other cell of the ship was already hit, i.e. precisely
when every cell of the ship is targeted afterwards. -/
theorem resolveShot_sunk_iff_all_cells_hit
    (board : Board) (ships : List Ship) (S : Ship) (r c : Nat)
    (hr : r < BOARD_SIZE) (hc : c < BOARD_SIZE)
    (hfind : ships.find? (fun s => s.id == S.id) = some S)
    (hcell : (board r c).ship = some S.id)
    (hnothit : (board r c).hit = false)
    (hmem : (r, c) ∈ S.cells)
    (hsunk : S.sunk = false) :
    ∃ out, resolveShot board ships (r : Int) (c : Int) = .ok out
      ∧ out.result.hit = true
      ∧ out.result.alreadyFired = false
      ∧ out.result.shipName = some S.name
      ∧ (out.result.sunk = true ↔ ∀ p ∈ S.cells, p ≠ (r, c) → (board p.1 p.2).hit = true)
      ∧ (out.result.sunk = true ↔ ∀ p ∈ S.cells, (out.board p.1 p.2).hit = true)
      ∧ out.ships.find? (fun s => s.id == S.id) = some { S with sunk := out.result.sunk } := by
  have hr' : r < 10 := hr
  have hc' : c < 10 := hc
  have hb : ¬ ((r : Int) < 0 ∨ (r : Int) ≥ (BOARD_SIZE : Int) ∨
      (c : Int) < 0 ∨ (c : Int) ≥ (BOARD_SIZE : Int)) := by
    show ¬ ((r : Int) < 0 ∨ (r : Int) ≥ (10 : Int) ∨ (c : Int) < 0 ∨ (c : Int) ≥ (10 : Int))
    omega
  refine ⟨{ result := { hit := true,
                        sunk := S.cells.all
                          (fun p => (setCell board r c { ship := some S.id, hit := true }
                            p.1 p.2).hit),
                        shipName := some S.name, alreadyFired := false },
            board := setCell board r c { ship := some S.id, hit := true },
            ships := markFirstSunk ships S.id
              (S.cells.all
                (fun p => (setCell board r c { ship := some S.id, hit := true }
                  p.1 p.2).hit)) },
          ?_, rfl, rfl, rfl, ?_, ?_, ?_⟩
  · simp only [resolveShot, if_neg hb, Int.toNat_natCast, hnothit, Bool.false_eq_true,
      if_false, hcell, hfind]
  · rw [List.all_eq_true]
    constructor
    · intro h p hp hne
      have hthis := h p hp
      simp only [setCell] at hthis
      rw [if_neg (fun hpc => hne (by cases p; simp at hpc ⊢; exact hpc))] at hthis
      exact hthis
    · intro h p hp
      simp only [setCell]
      by_cases hpc : p.1 = r ∧ p.2 = c
      · rw [if_pos hpc]
      · rw [if_neg hpc]
        exact h p hp (by cases p; simp at hpc ⊢; omega)
  · rw [List.all_eq_true]
  · show (markFirstSunk ships S.id _).find? (fun s => s.id == S.id) = _
    rw [find?_markFirstSunk ships S.id _ S hfind]
    cases hA : S.cells.all
        (fun p => (setCell board r c { ship := some S.id, hit := true } p.1 p.2).hit)
    · simp only [Bool.false_eq_true, if_false]
      cases S
      simp_all
    · simp

/-- Concrete instance of `resolveShot_sunk_iff_all_cells_hit`: firing at the
second cell of a Destroyer whose first cell is already hit. -/
theorem resolveShot_sunk_iff_all_cells_hit_witness :
    ∃ out, resolveShot
        (setCell (setCell createBoard 0 0 { ship := some "d1", hit := true })
          0 1 { ship := some "d1", hit := false })
        [{ id := "d1", name := "Destroyer", size := 2,
           cells := [(0, 0), (0, 1)], sunk := false }]
        ((0 : Nat) : Int) ((1 : Nat) : Int) = .ok out
      ∧ out.result.hit = true
      ∧ out.result.alreadyFired = false
      ∧ out.result.shipName = some "Destroyer"
      ∧ (out.result.sunk = true ↔ ∀ p ∈ [((0 : Nat), (0 : Nat)), (0, 1)], p ≠ (0, 1) →
          ((setCell (setCell createBoard 0 0 { ship := some "d1", hit := true })
            0 1 { ship := some "d1", hit := false }) p.1 p.2).hit = true)
      ∧ (out.result.sunk = true ↔ ∀ p ∈ [((0 : Nat), (0 : Nat)), (0, 1)],
          (out.board p.1 p.2).hit = true)
      ∧ out.ships.find? (fun s => s.id == "d1")
          = some { id := "d1", name := "Destroyer", size := 2,
                   cells := [(0, 0), (0, 1)], sunk := out.result.sunk } :=
  resolveShot_sunk_iff_all_cells_hit
    (setCell (setCell createBoard 0 0 { ship := some "d1", hit := true })
      0 1 { ship := some "d1", hit := false })
    [{ id := "d1", name := "Destroyer", size := 2, cells := [(0, 0), (0, 1)], sunk := false }]
    { id := "d1", name := "Destroyer", size := 2, cells := [(0, 0), (0, 1)], sunk := false }
    0 1 (by decide) (by decide) (by decide) (by decide) (by decide) (by decide) rfl

lemma shipFrame_refl (occ : Option String) (s : Ship) : shipFrame occ s s :=
  ⟨rfl, rfl, rfl, rfl, fun _ => rfl, .inl rfl⟩

lemma forall₂_shipFrame_refl (occ : Option String) (l : List Ship) :
    List.Forall₂ (shipFrame occ) l l :=
  List.forall₂_same.mpr (fun s _ => shipFrame_refl occ s)

lemma markFirstSunk_frame (ships : List Ship) (id : String) (b : Bool) :
    List.Forall₂ (shipFrame (some id)) ships (markFirstSunk ships id b) := by
  induction ships with
  | nil => exact .nil
  | cons s rest ih =>
    unfold markFirstSunk
    by_cases hs : s.id = id
    · rw [if_pos hs]
      refine .cons ?_ (forall₂_shipFrame_refl _ rest)
      cases b
      · exact shipFrame_refl _ s
      · exact ⟨rfl, rfl, rfl, rfl, fun h => absurd (by rw [hs]) h, .inr rfl⟩
    · rw [if_neg hs]
      exact .cons (shipFrame_refl _ s) ih

/-- C10: frame property of shot resolution.  For a non-duplicate in-bounds
shot, the returned board differs from the input only at the targeted cell,
where exactly the `hit` flag is raised; the returned fleet is in one-to-one
correspondence with the input fleet, each ship keeping its id, name, size and
cells, every ship whose id differs from the targeted cell's occupant fully
unchanged, and any changed ship changed only by raising `sunk`.  (The source
arrays themselves are never written: the function deep-copies, which the pure
embedding reflects.) -/
theorem resolveShot_frame
    (board : Board) (ships : List Ship) (r c : Nat)
    (hr : r < BOARD_SIZE) (hc : c < BOARD_SIZE)
    (hnothit : (board r c).hit = false)
    (hfind : ∀ id, (board r c).ship = some id →
      (ships.find? (fun s => s.id == id)).isSome) :
    ∃ out, resolveShot board ships (r : Int) (c : Int) = .ok out
      ∧ (∀ r' c', ¬ (r' = r ∧ c' = c) → out.board r' c' = board r' c')
      ∧ out.board r c = { ship := (board r c).ship, hit := true }
      ∧ List.Forall₂ (shipFrame ((board r c).ship)) ships out.ships := by
  have hr' : r < 10 := hr
  have hc' : c < 10 := hc
  have hb : ¬ ((r : Int) < 0 ∨ (r : Int) ≥ (BOARD_SIZE : Int) ∨
      (c : Int) < 0 ∨ (c : Int) ≥ (BOARD_SIZE : Int)) := by
    show ¬ ((r : Int) < 0 ∨ (r : Int) ≥ (10 : Int) ∨ (c : Int) < 0 ∨ (c : Int) ≥ (10 : Int))
    omega
  cases hship : (board r c).ship with
  | none =>
    refine ⟨{ result := { hit := false, sunk := false, shipName := none, alreadyFired := false },
              board := setCell board r c { ship := none, hit := true },
              ships := ships }, ?_, ?_, ?_, ?_⟩
    · simp only [resolveShot, if_neg hb, Int.toNat_natCast, hnothit, Bool.false_eq_true,
        if_false, hship]
    · intro r' c' hne
      simp only [setCell, if_neg hne]
    · simp [setCell, hship]
    · exact forall₂_shipFrame_refl _ ships
  | some id =>
    obtain ⟨S, hS⟩ := Option.isSome_iff_exists.mp (hfind id hship)
    refine ⟨{ result := { hit := true,
                          sunk := S.cells.all
                            (fun p => (setCell board r c { ship := some id, hit := true }
                              p.1 p.2).hit),
                          shipName := some S.name, alreadyFired := false },
              board := setCell board r c { ship := some id, hit := true },
              ships := markFirstSunk ships id
                (S.cells.all
                  (fun p => (setCell board r c { ship := some id, hit := true }
                    p.1 p.2).hit)) }, ?_, ?_, ?_, ?_⟩
    · simp only [resolveShot, if_neg hb, Int.toNat_natCast, hnothit, Bool.false_eq_true,
        if_false, hship, hS]
    · intro r' c' hne
      simp only [setCell, if_neg hne]
    · simp [setCell, hship]
    · exact markFirstSunk_frame ships id _

/-- Concrete instance of `resolveShot_frame`: a first hit on a Cruiser. -/
theorem resolveShot_frame_witness :
    ∃ out, resolveShot
        (setCell createBoard 2 3 { ship := some "s1", hit := false })
        [{ id := "s1", name := "Cruiser", size := 3,
           cells := [(2, 3), (2, 4), (2, 5)], sunk := false }]
        ((2 : Nat) : Int) ((3 : Nat) : Int) = .ok out
      ∧ (∀ r' c', ¬ (r' = 2 ∧ c' = 3) →
          out.board r' c'
            = (setCell createBoard 2 3 { ship := some "s1", hit := false }) r' c')
      ∧ out.board 2 3
          = { ship := ((setCell createBoard 2 3 { ship := some "s1", hit := false }) 2 3).ship,
              hit := true }
      ∧ List.Forall₂
          (shipFrame (((setCell createBoard 2 3 { ship := some "s1", hit := false }) 2 3).ship))
          [{ id := "s1", name := "Cruiser", size := 3,
             cells := [(2, 3), (2, 4), (2, 5)], sunk := false }]
          out.ships :=
  resolveShot_frame
    (setCell createBoard 2 3 { ship := some "s1", hit := false })
    [{ id := "s1", name := "Cruiser", size := 3, cells := [(2, 3), (2, 4), (2, 5)], sunk := false }]
    2 3 (by decide) (by decide) (by decide)
    (by
      intro id h
      have hcell : ((setCell createBoard 2 3 { ship := some "s1", hit := false }) 2 3).ship
          = some "s1" := by decide
      rw [hcell] at h
      obtain rfl : "s1" = id := Option.some_inj.mp h
      decide)

/-- C5 counterexample: a duplicate fire does change room state — the
last-activity timestamp is refreshed (here from 0 to 5) even though the shot
is rejected as already fired. -/
theorem fire_duplicate_changes_lastActivity :
    (fireHandler battleRoomDup "A" 0 0 5).1.lastActivity = 5
    ∧ battleRoomDup.lastActivity = 0
    ∧ (fireHandler battleRoomDup "A" 0 0 5).2
        = [("A", .errorMsg "Already fired at this cell")] := by
  refine ⟨rfl, rfl, rfl⟩

/-- C5 (amended): `resolveShot` on an already-targeted in-bounds cell returns
`alreadyFired` with the very same board and fleet, and a duplicate fire
through the coordinator leaves every part of the room unchanged — players,
boards, fleets, phase and turn — except the last-activity timestamp, which
the handler refreshes before resolving; the firer only gets an error
message. -/
theorem resolveShot_alreadyFired_idempotent :
    (∀ (board : Board) (ships : List Ship) (row col : Int),
      ¬ (row < 0 ∨ row ≥ (BOARD_SIZE : Int) ∨ col < 0 ∨ col ≥ (BOARD_SIZE : Int)) →
      (board row.toNat col.toNat).hit = true →
      resolveShot board ships row col
        = .ok { result := { hit := false, sunk := false, shipName := none, alreadyFired := true },
                board := board, ships := ships })
    ∧ (∀ (room : Room) (sid : String) (row col : Int) (now : Nat) (opp : Player),
      room.phase = .battle →
      room.currentTurn = sid →
      getOpponent room sid = some opp →
      ¬ (row < 0 ∨ row ≥ (BOARD_SIZE : Int) ∨ col < 0 ∨ col ≥ (BOARD_SIZE : Int)) →
      (opp.board row.toNat col.toNat).hit = true →
      fireHandler room sid row col now
        = ({ room with lastActivity := now },
           [(sid, .errorMsg "Already fired at this cell")])) := by
  have hres : ∀ (board : Board) (ships : List Ship) (row col : Int),
      ¬ (row < 0 ∨ row ≥ (BOARD_SIZE : Int) ∨ col < 0 ∨ col ≥ (BOARD_SIZE : Int)) →
      (board row.toNat col.toNat).hit = true →
      resolveShot board ships row col
        = .ok { result := { hit := false, sunk := false, shipName := none, alreadyFired := true },
                board := board, ships := ships } := by
    intro board ships row col hb hhit
    simp only [resolveShot, if_neg hb, hhit, if_true]
  refine ⟨hres, ?_⟩
  intro room sid row col now opp hphase hturn hopp hb hhit
  simp only [fireHandler, hphase, hturn, hopp, hres opp.board opp.ships row col hb hhit,
    ne_eq, not_true_eq_false, if_false, reduceCtorEq, if_true]

/-- Concrete instance of both halves of `resolveShot_alreadyFired_idempotent`
on the duplicate-shot room. -/
theorem resolveShot_alreadyFired_idempotent_witness :
    resolveShot boardDHit [destroyerShip] 0 0
      = .ok { result := { hit := false, sunk := false, shipName := none, alreadyFired := true },
              board := boardDHit, ships := [destroyerShip] }
    ∧ fireHandler battleRoomDup "A" 0 0 5
      = ({ battleRoomDup with lastActivity := 5 },
         [("A", .errorMsg "Already fired at this cell")]) :=
  ⟨resolveShot_alreadyFired_idempotent.1 boardDHit [destroyerShip] 0 0
      (by decide) (by decide),
   resolveShot_alreadyFired_idempotent.2 battleRoomDup "A" 0 0 5 playerBHit
      rfl rfl rfl (by decide) (by decide)⟩

/-- C3 counterexample: on an out-of-range fire (row 10) the coordinator
performs no bounds pre-check of its own — `resolveShot` is invoked with the
out-of-range coordinates, its out-of-bounds error branch fires, and that
thrown message is exactly what the firer receives. -/
theorem fire_out_of_bounds_reaches_resolver :
    resolveShot playerB.board playerB.ships 10 0
      = .error "Shot coordinates are out of bounds"
    ∧ fireHandler battleRoom "A" 10 0 5
      = ({ battleRoom with lastActivity := 5 },
         [("A", .errorMsg "Shot coordinates are out of bounds")]) :=
  ⟨rfl, rfl⟩

/-- C3 (amended): an out-of-range fire during battle on the firer's turn is
answered with an error message and changes nothing but the last-activity
timestamp; however the error is produced by `resolveShot`'s own
out-of-bounds branch — which the coordinator reaches and catches — not by a
coordinator-level pre-check. -/
theorem fire_out_of_bounds_caught
    (room : Room) (sid : String) (row col : Int) (now : Nat) (opp : Player)
    (hphase : room.phase = .battle)
    (hturn : room.currentTurn = sid)
    (hopp : getOpponent room sid = some opp)
    (hb : row < 0 ∨ row ≥ (BOARD_SIZE : Int) ∨ col < 0 ∨ col ≥ (BOARD_SIZE : Int)) :
    resolveShot opp.board opp.ships row col
      = .error "Shot coordinates are out of bounds"
    ∧ fireHandler room sid row col now
      = ({ room with lastActivity := now },
         [(sid, .errorMsg "Shot coordinates are out of bounds")]) := by
  have hres : resolveShot opp.board opp.ships row col
      = .error "Shot coordinates are out of bounds" := by
    simp only [resolveShot, if_pos hb]
  refine ⟨hres, ?_⟩
  simp only [fireHandler, hphase, hturn, hopp, hres,
    ne_eq, not_true_eq_false, if_false]

/-- Concrete instance of `fire_out_of_bounds_caught` at row 10. -/
theorem fire_out_of_bounds_caught_witness :
    resolveShot playerB.board playerB.ships 10 (-3)
      = .error "Shot coordinates are out of bounds"
    ∧ fireHandler battleRoom "A" 10 (-3) 7
      = ({ battleRoom with lastActivity := 7 },
         [("A", .errorMsg "Shot coordinates are out of bounds")]) :=
  fire_out_of_bounds_caught battleRoom "A" 10 (-3) 7 playerB rfl rfl rfl (by decide)

/-- The returned outcome of `resolveShot` is a function of the targeted
cell's observation alone. -/
lemma resolveShot_result_eq_resultOfObs (board : Board) (ships : List Ship) (row col : Int) :
    (resolveShot board ships row col).map (fun o => o.result)
      = resultOfObs (targetObs board ships row col) := by
  by_cases hb : row < 0 ∨ row ≥ (BOARD_SIZE : Int) ∨ col < 0 ∨ col ≥ (BOARD_SIZE : Int)
  · simp only [resolveShot, targetObs, if_pos hb, Except.map, resultOfObs]
  · simp only [resolveShot, targetObs, if_neg hb]
    cases hhit : (board row.toNat col.toNat).hit
    · simp only [Bool.false_eq_true, if_false]
      cases hship : (board row.toNat col.toNat).ship with
      | none => simp [Except.map, resultOfObs]
      | some shipId =>
        cases hfind : ships.find? (fun s => s.id == shipId) with
        | none => simp [hfind, Except.map, resultOfObs]
        | some hitShip => simp [hfind, Except.map, resultOfObs]
    · simp [Except.map, resultOfObs]

lemma fireHandler_events (room : Room) (sid : String) (row col : Int) (now : Nat)
    (opp : Player)
    (hphase : room.phase = .battle)
    (hturn : room.currentTurn = sid)
    (hopp : getOpponent room sid = some opp) :
    (fireHandler room sid row col now).2
      = fireEvents sid opp.socketId row col
          ((resolveShot opp.board opp.ships row col).map (fun o => o.result))
          (winAfter opp.board opp.ships row col) := by
  simp only [fireHandler, hphase, hturn, hopp, ne_eq, not_true_eq_false, if_false]
  cases hres : resolveShot opp.board opp.ships row col with
  | error e => simp [fireEvents, Except.map, winAfter, hres]
  | ok out =>
    simp only [fireEvents, Except.map, winAfter, hres]
    by_cases haf : out.result.alreadyFired
    · simp [haf]
    · simp only [haf, Bool.false_eq_true, if_false]
      by_cases hw : checkWin out.ships
      · simp [hw]
      · simp [hw]

lemma handleReconnect_events (room : Room) (sid : String) (p : Player)
    (hp : room.players.find? (fun x => x.socketId == sid) = some p) :
    (handleReconnect room sid true).2
      = reconnectEvents sid ((getOpponent room sid).map (fun o => o.socketId))
          room.phase p.board p.ships p.ready room.currentTurn := by
  simp only [handleReconnect, Bool.not_true, Bool.false_eq_true, if_false, hp, reconnectEvents]
  cases hopp : getOpponent room sid with
  | none => simp
  | some opp => simp

/-- C2 (amended): outputs reveal nothing beyond the allowed observations.
For a fire, the full emitted message list is a function only of the two
session ids, the coordinates, the targeted cell's observation (already-fired
flag, occupancy, the hit ship's kind — sent on every hit, not only a sinking
one — and that ship's now-sunk status) and the public all-sunk win bit: two
rooms whose defenders agree on those produce identical messages.  For a
reconnect, the snapshot is a function only of the reconnecting session's own
board, ships and readiness plus the room's phase and turn (and the
opponent's session id for routing). -/
theorem fire_and_reconnect_noninterference :
    (∀ (room1 room2 : Room) (sid : String) (row col : Int) (now : Nat) (opp1 opp2 : Player),
      room1.phase = .battle → room2.phase = .battle →
      room1.currentTurn = sid → room2.currentTurn = sid →
      getOpponent room1 sid = some opp1 → getOpponent room2 sid = some opp2 →
      opp1.socketId = opp2.socketId →
      targetObs opp1.board opp1.ships row col = targetObs opp2.board opp2.ships row col →
      winAfter opp1.board opp1.ships row col = winAfter opp2.board opp2.ships row col →
      (fireHandler room1 sid row col now).2 = (fireHandler room2 sid row col now).2)
    ∧ (∀ (room1 room2 : Room) (sid : String) (p1 p2 : Player),
      room1.players.find? (fun x => x.socketId == sid) = some p1 →
      room2.players.find? (fun x => x.socketId == sid) = some p2 →
      p1.board = p2.board → p1.ships = p2.ships → p1.ready = p2.ready →
      room1.phase = room2.phase → room1.currentTurn = room2.currentTurn →
      (getOpponent room1 sid).map (fun o => o.socketId)
        = (getOpponent room2 sid).map (fun o => o.socketId) →
      (handleReconnect room1 sid true).2 = (handleReconnect room2 sid true).2) := by
  constructor
  · intro room1 room2 sid row col now opp1 opp2 hphase1 hphase2 hturn1 hturn2
      hopp1 hopp2 hsock hobs hwin
    rw [fireHandler_events room1 sid row col now opp1 hphase1 hturn1 hopp1,
        fireHandler_events room2 sid row col now opp2 hphase2 hturn2 hopp2,
        hsock, hwin,
        resolveShot_result_eq_resultOfObs, resolveShot_result_eq_resultOfObs, hobs]
  · intro room1 room2 sid p1 p2 hp1 hp2 hboard hships hready hphase hturn hoppid
    rw [handleReconnect_events room1 sid p1 hp1, handleReconnect_events room2 sid p2 hp2,
        hboard, hships, hready, hphase, hturn, hoppid]

/-- C2 counterexample: a first, non-sinking hit on B's Destroyer.  The
`shot-result` message to the firer already carries the ship's kind
(`shipName = "Destroyer"`) although `sunk = false` — more than "the sunk
ship's kind". -/
theorem shot_result_carries_kind_without_sunk :
    (fireHandler battleRoom "A" 0 0 5).2
      = [("A", .shotResultEv 0 0 true false (some "Destroyer")),
         ("B", .opponentShot 0 0 true false (some "Destroyer")),
         ("A", .turnChanged "B" false),
         ("B", .turnChanged "B" true)] := rfl

/-- Concrete instance of `fire_and_reconnect_noninterference`: two rooms
whose defenders hold differently-placed Destroyers that agree at the
targeted cell produce identical fire messages, and identical reconnect
snapshots for the other session. -/
theorem fire_and_reconnect_noninterference_witness :
    (fireHandler battleRoom "A" 0 0 5).2 = (fireHandler battleRoomV "A" 0 0 5).2
    ∧ (handleReconnect battleRoom "A" true).2 = (handleReconnect battleRoomV "A" true).2 :=
  ⟨fire_and_reconnect_noninterference.1 battleRoom battleRoomV "A" 0 0 5 playerB playerBV
      rfl rfl rfl rfl rfl rfl rfl (by decide) (by decide),
   fire_and_reconnect_noninterference.2 battleRoom battleRoomV "A" playerA playerA
      rfl rfl rfl rfl rfl rfl rfl rfl⟩

lemma buildFleet_append (pre rest : List Placement) (ids : Nat → String) :
    ∀ (board : Board) (ships : List Ship) (k : Nat),
    buildFleet board ships (pre ++ rest) ids k
      = match buildFleet board ships pre ids k with
        | .error e => .error e
        | .ok bs => buildFleet bs.1 bs.2 rest ids (k + pre.length) := by
  induction pre with
  | nil => intro b s k; simp [buildFleet]
  | cons pl pre ih =>
    intro b s k
    simp only [List.cons_append, buildFleet]
    cases hps : placeShip b pl.ship pl.row pl.col pl.orient (ids k) with
    | failure e => rfl
    | success b' sh =>
      show buildFleet b' (s ++ [sh]) (pre ++ rest) ids (k + 1)
        = match buildFleet b' (s ++ [sh]) pre ids (k + 1) with
          | .error e => .error e
          | .ok bs => buildFleet bs.1 bs.2 rest ids (k + (pl :: pre).length)
      rw [ih]
      cases buildFleet b' (s ++ [sh]) pre ids (k + 1) with
      | error e => rfl
      | ok bs =>
        show buildFleet bs.1 bs.2 rest ids (k + 1 + pre.length)
          = buildFleet bs.1 bs.2 rest ids (k + (pl :: pre).length)
        congr 1
        simp only [List.length_cons]
        omega

lemma buildFleet_error_at (pre : List Placement) (bad : Placement) (rest : List Placement)
    (ids : Nat → String) (b : Board) (shps : List Ship) (msg : String)
    (hpre : buildFleet createBoard [] pre ids 0 = .ok (b, shps))
    (hbad : placeShip b bad.ship bad.row bad.col bad.orient (ids pre.length) = .failure msg) :
    buildFleet createBoard [] (pre ++ bad :: rest) ids 0
      = .error ("Invalid placement: " ++ msg) := by
  rw [buildFleet_append pre (bad :: rest) ids createBoard [] 0, hpre]
  show buildFleet b shps (bad :: rest) ids (0 + pre.length) = _
  simp only [Nat.zero_add, buildFleet, hbad]

/-- C4: `place-ships` is atomic.  In placement phase with the submitting
player present: any failure of the sequential re-derivation — in particular
the first invalid placement, with its specific error — rejects the whole
submission and returns the room (players, boards, fleets, ready flags, phase,
turn, timestamps) completely unchanged; a wrong ship count is likewise
rejected unchanged; and a fully valid submission is exactly what replaces the
player's board, ships and ready flag. -/
theorem placeShips_atomic
    (room : Room) (sid : String) (placements : List Placement) (ids : Nat → String)
    (now : Nat) (coin : Bool) (q : Player)
    (hphase : room.phase = .placement)
    (hq : room.players.find? (fun p => p.socketId == sid) = some q) :
    (∀ e, buildFleet createBoard [] placements ids 0 = .error e →
      placeShipsHandler room sid placements ids now coin = (room, [(sid, .errorMsg e)]))
    ∧ (∀ pre bad rest b shps msg, placements = pre ++ bad :: rest →
      buildFleet createBoard [] pre ids 0 = .ok (b, shps) →
      placeShip b bad.ship bad.row bad.col bad.orient (ids pre.length) = .failure msg →
      placeShipsHandler room sid placements ids now coin
        = (room, [(sid, .errorMsg ("Invalid placement: " ++ msg))]))
    ∧ (∀ b shps, buildFleet createBoard [] placements ids 0 = .ok (b, shps) →
      shps.length ≠ SHIPS.length →
      placeShipsHandler room sid placements ids now coin
        = (room, [(sid, .errorMsg "Not all ships were placed")]))
    ∧ (∀ b shps, buildFleet createBoard [] placements ids 0 = .ok (b, shps) →
      shps.length = SHIPS.length →
      (placeShipsHandler room sid placements ids now coin).1.players
        = updateFirstPlayer room.players sid
            (fun p => { p with board := b, ships := shps, ready := true })
      ∧ (placeShipsHandler room sid placements ids now coin).1.lastActivity = now) := by
  have herr : ∀ e, buildFleet createBoard [] placements ids 0 = .error e →
      placeShipsHandler room sid placements ids now coin = (room, [(sid, .errorMsg e)]) := by
    intro e he
    simp only [placeShipsHandler, hphase, hq, Option.isNone_some, Bool.false_eq_true,
      if_false, he, ne_eq, not_true_eq_false, reduceCtorEq]
  refine ⟨herr, ?_, ?_, ?_⟩
  · intro pre bad rest b shps msg hsplit hpre hbad
    exact herr _ (hsplit ▸ buildFleet_error_at pre bad rest ids b shps msg hpre hbad)
  · intro b shps hok hlen
    simp only [placeShipsHandler, hphase, hq, Option.isNone_some, Bool.false_eq_true,
      if_false, hok, ne_eq, not_true_eq_false, reduceCtorEq, hlen,
      not_false_eq_true, if_true]
  · intro b shps hok hlen
    simp only [placeShipsHandler, hphase, hq, Option.isNone_some, Bool.false_eq_true,
      if_false, hok, ne_eq, hlen, not_true_eq_false, if_false]
    constructor
    · split
      · split
        · rfl
        · rfl
      · rfl
    · split
      · split
        · rfl
        · rfl
      · rfl

/-- Concrete instances of `placeShips_atomic`: a submission whose second
placement overruns the board is rejected with that placement's specific
error and the room is returned unchanged, while a fully valid standard
submission replaces exactly the submitting player's state. -/
theorem placeShips_atomic_witness :
    placeShipsHandler placementRoom "A" [carrierPl, badPl] (fun _ => "w") 9 true
      = (placementRoom,
         [("A", .errorMsg "Invalid placement: Ship extends beyond board boundaries")])
    ∧ (placeShipsHandler placementRoom "A" stdPlacements (fun _ => "w") 9 true).1.players
        = updateFirstPlayer placementRoom.players "A"
            (fun p => { p with board := stdBoardW, ships := stdShipsW, ready := true })
    ∧ (placeShipsHandler placementRoom "A" stdPlacements (fun _ => "w") 9 true).1.lastActivity
        = 9 :=
  ⟨(placeShips_atomic placementRoom "A" [carrierPl, badPl] (fun _ => "w") 9 true
      (createPlayer "A") rfl rfl).2.1
      [carrierPl] badPl [] preBoardW preShipsW "Ship extends beyond board boundaries"
      rfl rfl rfl,
   ((placeShips_atomic placementRoom "A" stdPlacements (fun _ => "w") 9 true
      (createPlayer "A") rfl rfl).2.2.2 stdBoardW stdShipsW rfl rfl).1,
   ((placeShips_atomic placementRoom "A" stdPlacements (fun _ => "w") 9 true
      (createPlayer "A") rfl rfl).2.2.2 stdBoardW stdShipsW rfl rfl).2⟩

/-- C1: the `place-ships` handler accepts a submission of five Destroyers —
it checks only the placement count (5) and the geometry, never that the
kind/size entries match the standard fleet.  The player is marked ready with
a fleet of five "Destroyer" ships, violating the one-ship-per-kind fleet
invariant the spec states. -/
theorem place_ships_accepts_nonstandard_fleet :
    ((placeShipsHandler placementRoom "A" fiveDestroyers (fun _ => "w") 9 true).1.players.find?
        (fun p => p.socketId == "A")).map (fun p => (p.ready, p.ships.map (fun s => s.name)))
      = some (true, ["Destroyer", "Destroyer", "Destroyer", "Destroyer", "Destroyer"])
    ∧ (placeShipsHandler placementRoom "A" fiveDestroyers (fun _ => "w") 9 true).2
      = [("A", .placementConfirmed)] :=
  ⟨rfl, rfl⟩

lemma mem_gridCells (p : Int × Int) : p ∈ gridCells ↔ inBoard p := by
  constructor
  · intro hp
    unfold gridCells at hp
    rw [List.mem_flatMap] at hp
    obtain ⟨r, hr, hp⟩ := hp
    rw [List.mem_map] at hp
    obtain ⟨c, hc, rfl⟩ := hp
    rw [List.mem_range] at hr hc
    have hr10 : r < 10 := hr
    have hc10 : c < 10 := hc
    unfold inBoard
    refine ⟨by simp, ?_, by simp, ?_⟩
    · show (r : Int) < (10 : Int)
      omega
    · show (c : Int) < (10 : Int)
      omega
  · rintro ⟨h1, h2, h3, h4⟩
    have h2' : p.1 < (10 : Int) := h2
    have h4' : p.2 < (10 : Int) := h4
    unfold gridCells
    rw [List.mem_flatMap]
    refine ⟨p.1.toNat, ?_, ?_⟩
    · rw [List.mem_range]
      show p.1.toNat < 10
      omega
    · rw [List.mem_map]
      refine ⟨p.2.toNat, ?_, ?_⟩
      · rw [List.mem_range]
        show p.2.toNat < 10
        omega
      · show ((p.1.toNat : Int), (p.2.toNat : Int)) = p
        cases p with
        | mk a b =>
          simp only [Prod.mk.injEq]
          constructor <;> omega

lemma addAdjacentTargets_aux (row col : Int) (fired : List (Int × Int)) :
    ∀ (ds : List (Int × Int)) (q : List (Int × Int)) (p : Int × Int),
    p ∈ ds.foldl
      (fun q d =>
        let nr := row + d.1
        let nc := col + d.2
        if 0 ≤ nr ∧ nr < (BOARD_SIZE : Int) ∧ 0 ≤ nc ∧ nc < (BOARD_SIZE : Int) ∧
            ¬ (nr, nc) ∈ fired ∧ ¬ (nr, nc) ∈ q then
          q ++ [(nr, nc)]
        else q) q →
    p ∈ q ∨ inBoard p := by
  intro ds
  induction ds with
  | nil => intro q p hp; exact .inl hp
  | cons d ds ih =>
    intro q p hp
    simp only [List.foldl_cons] at hp
    rcases ih _ p hp with hmem | hinb
    · by_cases hcond : 0 ≤ row + d.1 ∧ row + d.1 < (BOARD_SIZE : Int) ∧
          0 ≤ col + d.2 ∧ col + d.2 < (BOARD_SIZE : Int) ∧
          ¬ (row + d.1, col + d.2) ∈ fired ∧ ¬ (row + d.1, col + d.2) ∈ q
      · rw [if_pos hcond] at hmem
        rcases List.mem_append.mp hmem with h | h
        · exact .inl h
        · right
          obtain rfl : p = (row + d.1, col + d.2) := by simpa using h
          exact ⟨hcond.1, hcond.2.1, hcond.2.2.1, hcond.2.2.2.1⟩
      · rw [if_neg hcond] at hmem
        exact .inl hmem
    · exact .inr hinb

lemma mem_addAdjacentTargets (q : List (Int × Int)) (row col : Int)
    (fired : List (Int × Int)) (p : Int × Int)
    (hp : p ∈ addAdjacentTargets q row col fired) : p ∈ q ∨ inBoard p :=
  addAdjacentTargets_aux row col fired _ q p hp

lemma processShot_queue (st : AIState) (fired : List (Int × Int)) (shot : ShotRecord)
    (p : Int × Int) (hp : p ∈ (processShot st fired shot).targetQueue) :
    p ∈ st.targetQueue ∨ inBoard p := by
  simp only [processShot] at hp
  split at hp
  · simp at hp
  · split at hp
    · exact mem_addAdjacentTargets _ _ _ _ _ hp
    · exact .inl hp

lemma updateState_queue_inBoard (st : AIState) (history : List ShotRecord)
    (fired : List (Int × Int)) (h : ∀ p ∈ st.targetQueue, inBoard p) :
    ∀ p ∈ (updateStateFromHistory st history fired).targetQueue, inBoard p := by
  unfold updateStateFromHistory
  by_cases hemp : history.isEmpty
  · rw [if_pos hemp]
    intro p hp
    simp [initialAIState] at hp
  · rw [if_neg hemp]
    intro p hp
    simp only at hp
    revert hp
    have haux : ∀ (shots : List ShotRecord) (s : AIState), (∀ x ∈ s.targetQueue, inBoard x) →
        ∀ x ∈ (shots.foldl (fun s sh => processShot s fired sh) s).targetQueue, inBoard x := by
      intro shots
      induction shots with
      | nil => intro s hs x hx; exact hs x hx
      | cons sh shots ih =>
        intro s hs x hx
        refine ih (processShot s fired sh) ?_ x hx
        intro y hy
        rcases processShot_queue s fired sh y hy with hmem | hinb
        · exact hs y hmem
        · exact hinb
    exact haux (history.drop st.lastProcessedShotCount) st h p

lemma getHuntModeShot_spec (fired : List (Int × Int)) (rng : Nat) :
    ((∃ p ∈ gridCells, p ∉ fired) →
      ∃ shot, getHuntModeShot fired rng = .ok shot ∧ shot ∈ gridCells ∧ shot ∉ fired)
    ∧ ((∀ p ∈ gridCells, p ∈ fired) →
      getHuntModeShot fired rng = .error "No available cells to fire at") := by
  constructor
  · intro ⟨p, hg, hnf⟩
    have hmem : p ∈ gridCells.filter (fun x => ¬ x ∈ fired) := by
      rw [List.mem_filter]
      exact ⟨hg, by simpa using hnf⟩
    have hne : gridCells.filter (fun x => ¬ x ∈ fired) ≠ [] :=
      List.ne_nil_of_mem hmem
    have hlt : rng % (gridCells.filter (fun x => ¬ x ∈ fired)).length
        < (gridCells.filter (fun x => ¬ x ∈ fired)).length :=
      Nat.mod_lt _ (List.length_pos.mpr hne)
    refine ⟨(gridCells.filter (fun x => ¬ x ∈ fired)).getD
      (rng % (gridCells.filter (fun x => ¬ x ∈ fired)).length) (0, 0), ?_, ?_⟩
    · unfold getHuntModeShot
      rw [if_neg (by simpa [List.isEmpty_iff] using hne)]
    · have hget : (gridCells.filter (fun x => ¬ x ∈ fired)).getD
          (rng % (gridCells.filter (fun x => ¬ x ∈ fired)).length) (0, 0)
          ∈ gridCells.filter (fun x => ¬ x ∈ fired) := by
        rw [List.getD_eq_getElem?_getD, List.getElem?_eq_getElem hlt]
        exact List.getElem_mem hlt
      rw [List.mem_filter] at hget
      exact ⟨hget.1, by simpa using hget.2⟩
  · intro hall
    have hemp : gridCells.filter (fun x => ¬ x ∈ fired) = [] := by
      rw [List.filter_eq_nil_iff]
      intro a ha
      simpa using hall a ha
    unfold getHuntModeShot
    rw [if_pos (List.isEmpty_iff.mpr hemp)]

lemma getTargetModeShot_spec (st : AIState) (fired : List (Int × Int)) (rng : Nat)
    (hq : ∀ p ∈ st.targetQueue, inBoard p) :
    ((∃ p ∈ gridCells, p ∉ fired) →
      ∃ shot st', getTargetModeShot st fired rng = .ok (shot, st') ∧ shot ∉ fired)
    ∧ ((∀ p ∈ gridCells, p ∈ fired) →
      getTargetModeShot st fired rng = .error "No available cells to fire at") := by
  have heq : getTargetModeShot st fired rng
      = match st.targetQueue.filter (fun t => ¬ t ∈ fired) with
        | [] => (getHuntModeShot fired rng).map
            (fun p => (p, { st with mode := .hunt, targetQueue := [] }))
        | t :: rest => .ok (t, { st with targetQueue := rest }) := rfl
  constructor
  · intro hex
    obtain ⟨shot, hhunt, _, hnf⟩ := (getHuntModeShot_spec fired rng).1 hex
    rw [heq]
    cases hfq : st.targetQueue.filter (fun t => ¬ t ∈ fired) with
    | nil => exact ⟨shot, _, by rw [hhunt]; rfl, hnf⟩
    | cons t rest =>
      refine ⟨t, _, rfl, ?_⟩
      have ht : t ∈ st.targetQueue.filter (fun t => ¬ t ∈ fired) := by
        rw [hfq]
        exact List.mem_cons_self t rest
      rw [List.mem_filter] at ht
      simpa using ht.2
  · intro hall
    have hhunt := (getHuntModeShot_spec fired rng).2 hall
    have hfq : st.targetQueue.filter (fun t => ¬ t ∈ fired) = [] := by
      rw [List.filter_eq_nil_iff]
      intro a ha
      simpa using hall a ((mem_gridCells a).mpr (hq a ha))
    rw [heq, hfq, hhunt]
    rfl

/-- C8: the AI never re-selects a cell from the supplied history.  Under the
reachable-state invariant that every queued target is in-bounds: whenever
some board cell is not in the history, `getNextShot` succeeds and returns a
cell not present in the history (in hunt or target mode alike); when the
history already covers all 100 cells it fails with the exhausted error
instead. -/
theorem getNextShot_never_repeats
    (st : AIState) (history : List ShotRecord) (rng : Nat)
    (hqueue : ∀ p ∈ st.targetQueue, inBoard p) :
    ((∃ p ∈ gridCells, p ∉ firedPositions history) →
      ∃ shot st', getNextShot st history rng = .ok (shot, st')
        ∧ shot ∉ firedPositions history)
    ∧ ((∀ p ∈ gridCells, p ∈ firedPositions history) →
      getNextShot st history rng = .error "No available cells to fire at") := by
  have hq1 : ∀ p ∈ (updateStateFromHistory st history (firedPositions history)).targetQueue,
      inBoard p :=
    updateState_queue_inBoard st history (firedPositions history) hqueue
  have heq : getNextShot st history rng
      = if (updateStateFromHistory st history (firedPositions history)).mode = .target ∧
            (updateStateFromHistory st history (firedPositions history)).targetQueue ≠ [] then
          getTargetModeShot (updateStateFromHistory st history (firedPositions history))
            (firedPositions history) rng
        else
          (getHuntModeShot (firedPositions history) rng).map
            (fun p => (p, updateStateFromHistory st history (firedPositions history))) := rfl
  constructor
  · intro hex
    rw [heq]
    by_cases hmode : (updateStateFromHistory st history (firedPositions history)).mode
        = .target ∧ (updateStateFromHistory st history (firedPositions history)).targetQueue ≠ []
    · rw [if_pos hmode]
      exact (getTargetModeShot_spec _ _ rng hq1).1 hex
    · rw [if_neg hmode]
      obtain ⟨shot, hhunt, _, hnf⟩ := (getHuntModeShot_spec (firedPositions history) rng).1 hex
      exact ⟨shot, _, by rw [hhunt]; rfl, hnf⟩
  · intro hall
    rw [heq]
    by_cases hmode : (updateStateFromHistory st history (firedPositions history)).mode
        = .target ∧ (updateStateFromHistory st history (firedPositions history)).targetQueue ≠ []
    · rw [if_pos hmode]
      exact (getTargetModeShot_spec _ _ rng hq1).2 hall
    · rw [if_neg hmode]
      rw [(getHuntModeShot_spec (firedPositions history) rng).2 hall]
      rfl

set_option maxRecDepth 4000 in
/-- Concrete instances of `getNextShot_never_repeats`: a fresh AI with empty
history gets a fresh cell; an AI whose history covers all 100 cells fails
with the exhausted error. -/
theorem getNextShot_never_repeats_witness :
    (∃ shot st', getNextShot initialAIState [] 0 = .ok (shot, st')
      ∧ shot ∉ firedPositions [])
    ∧ getNextShot initialAIState fullHistory 0
        = .error "No available cells to fire at" :=
  ⟨(getNextShot_never_repeats initialAIState [] 0
      (by intro p hp; simp [initialAIState] at hp)).1 ⟨(0, 0), by decide, by decide⟩,
   (getNextShot_never_repeats initialAIState fullHistory 0
      (by intro p hp; simp [initialAIState] at hp)).2 (by decide)⟩

/-- C9 counterexample: a successful reconnect does not refresh the room's
last-activity timestamp — the room object (timestamp included) is returned
completely unchanged, so reconnect does not reset the idle clock. -/
theorem reconnect_does_not_update_activity :
    (handleReconnect battleRoom "A" true).1 = battleRoom
    ∧ battleRoom.lastActivity = 0 := ⟨rfl, rfl⟩

/-- C9 (amended): the last-activity timestamp is refreshed by every
successful join, placement submission and fire (for a fire, by every attempt
that reaches shot resolution) — but not by reconnect, which leaves the room
untouched; and the periodic idle sweep removes exactly the rooms idle longer
than the window, emitting `room-closed` to every player of each removed
room, independent of phase. -/
theorem activity_tracking_and_idle_sweep :
    (∀ (room : Room) (sid : String) (now : Nat),
      ¬ room.players.length ≥ 2 →
      (joinRoomHandler room sid now).1.lastActivity = now)
    ∧ (∀ (room : Room) (sid : String) (placements : List Placement) (ids : Nat → String)
        (now : Nat) (coin : Bool) (q : Player) (b : Board) (shps : List Ship),
      room.phase = .placement →
      room.players.find? (fun p => p.socketId == sid) = some q →
      buildFleet createBoard [] placements ids 0 = .ok (b, shps) →
      shps.length = SHIPS.length →
      (placeShipsHandler room sid placements ids now coin).1.lastActivity = now)
    ∧ (∀ (room : Room) (sid : String) (row col : Int) (now : Nat) (opp : Player),
      room.phase = .battle → room.currentTurn = sid → getOpponent room sid = some opp →
      (fireHandler room sid row col now).1.lastActivity = now)
    ∧ (∀ (room : Room) (sid : String) (pending : Bool),
      (handleReconnect room sid pending).1 = room)
    ∧ (∀ (roomsL : List Room) (now : Nat) (room : Room), room ∈ roomsL →
      (roomIsIdle room now = true →
        room ∉ (checkIdleRooms roomsL now).1
        ∧ ∀ p ∈ room.players,
            (p.socketId, ServerEvent.roomClosed "Room was idle for 10 minutes")
              ∈ (checkIdleRooms roomsL now).2)
      ∧ (roomIsIdle room now = false → room ∈ (checkIdleRooms roomsL now).1)) := by
  refine ⟨?_, ?_, ?_, ?_, ?_⟩
  · intro room sid now hlt
    simp only [joinRoomHandler, if_neg hlt]
    split
    · rfl
    · rfl
  · intro room sid placements ids now coin q b shps hphase hq hok hlen
    simp only [placeShipsHandler, hphase, hq, Option.isNone_some, Bool.false_eq_true,
      if_false, hok, ne_eq, hlen, not_true_eq_false]
    split
    · split
      · rfl
      · rfl
    · rfl
  · intro room sid row col now opp hphase hturn hopp
    simp only [fireHandler, hphase, hturn, hopp, ne_eq, not_true_eq_false, if_false]
    cases hres : resolveShot opp.board opp.ships row col with
    | error e => rfl
    | ok out =>
      by_cases haf : out.result.alreadyFired
      · simp [haf]
      · simp only [haf, Bool.false_eq_true, if_false]
        by_cases hw : checkWin out.ships
        · simp [hw]
        · simp [hw]
  · intro room sid pending
    unfold handleReconnect
    cases pending
    · rfl
    · simp only [Bool.not_true, Bool.false_eq_true, if_false]
      cases getOpponent room sid
      · cases room.players.find? (fun p => p.socketId == sid) <;> rfl
      · cases room.players.find? (fun p => p.socketId == sid) <;> rfl
  · intro roomsL now room hmem
    constructor
    · intro hidle
      constructor
      · intro hmem'
        have hpred := (List.mem_filter.mp hmem').2
        simp [hidle] at hpred
      · intro p hp
        refine List.mem_flatMap.mpr ⟨room, ?_, ?_⟩
        · exact List.mem_filter.mpr ⟨hmem, by simp [hidle]⟩
        · exact List.mem_map.mpr ⟨p, hp, rfl⟩
    · intro hidle
      exact List.mem_filter.mpr ⟨hmem, by simp [hidle]⟩

/-- Concrete instances of every part of `activity_tracking_and_idle_sweep`. -/
theorem activity_tracking_and_idle_sweep_witness :
    (joinRoomHandler waitingRoom "B" 5).1.lastActivity = 5
    ∧ (placeShipsHandler placementRoom "A" stdPlacements (fun _ => "w") 9 true).1.lastActivity = 9
    ∧ (fireHandler battleRoom "A" 0 0 5).1.lastActivity = 5
    ∧ (handleReconnect battleRoom "A" true).1 = battleRoom
    ∧ (battleRoom ∉ (checkIdleRooms [battleRoom] 600001).1
       ∧ ∀ p ∈ battleRoom.players,
          (p.socketId, ServerEvent.roomClosed "Room was idle for 10 minutes")
            ∈ (checkIdleRooms [battleRoom] 600001).2) :=
  ⟨activity_tracking_and_idle_sweep.1 waitingRoom "B" 5 (by decide),
   activity_tracking_and_idle_sweep.2.1 placementRoom "A" stdPlacements (fun _ => "w") 9 true
     (createPlayer "A") stdBoardW stdShipsW rfl rfl rfl rfl,
   activity_tracking_and_idle_sweep.2.2.1 battleRoom "A" 0 0 5 playerB rfl rfl rfl,
   activity_tracking_and_idle_sweep.2.2.2.1 battleRoom "A" true,
   (activity_tracking_and_idle_sweep.2.2.2.2 [battleRoom] 600001 battleRoom
      (List.mem_singleton.mpr rfl)).1 (by decide)⟩

end Battleship
